import Mathlib

/-!
Verification development for the cr-daemon repository (Go).

The Go sources are shallowly embedded: every pure decision made by the
daemon's code is a Lean function; effects performed through external
collaborators (file system, JSON codec, checkpoint provider, namespace
managers) are represented by explicit outcome parameters, so that a call
`provider.Prepare(ref, target)` becomes a lookup into an environment value
describing what that call would have returned.  Concurrency note: in the
checkpoint service the whole body of `Get` past the empty-ref check runs
under the service mutex `s.m`, so every interleaving of `Get` calls is
observationally equal to some sequential order of the calls; traces below
are those sequential orders.
-/

namespace CerManager

/-- Result type mirroring Go's `(value, error)` pairs: exactly one of the
two is meaningful. -/
inductive GoRes (α : Type) where
  | ok (a : α)
  | err (msg : String)
deriving DecidableEq, Repr

/-- `GoRes.isOk` holds exactly on the `ok` constructor. -/
def GoRes.isOk {α : Type} : GoRes α → Bool
  | .ok _ => true
  | .err _ => false

/-- Go's `path.Join` on two already-clean, non-empty segments. -/
def pathJoin (a b : String) : String := a ++ "/" ++ b

/-! ## Checkpoint service (package `checkpoint`, `src/unnamed/part_001`)

`service` holds `root` (the daemon root joined with `"checkpoint"`), the
provider, the optional reference manager and the `targets` map.  The map
only ever stores `struct{}` values, so it is embedded as the list of its
keys. -/

/-- The mutable state of the checkpoint `service`: the keys of the
`targets` map (`targets map[string]struct{}`). -/
structure CpState where
  targets : List String
deriving DecidableEq, Repr

/-- Outcomes of the two effectful calls inside one `service.Get`:
`os.MkdirAll(target, 0755)` and `s.provider.Prepare(ref, target)`.
`none` means the call returns a nil error. -/
structure CpEnv where
  mkdirErr : Option String
  prepErr : Option String
deriving DecidableEq, Repr

/-- An environment in which both calls succeed. -/
def CpEnv.allOk : CpEnv := ⟨none, none⟩

/-- Result of one `service.Get(ref)` call: the updated state, the returned
`(string, error)` pair, and whether `provider.Prepare` was invoked during
the call. -/
structure CpGetOut where
  state : CpState
  res : GoRes String
  preparedCalled : Bool
deriving DecidableEq, Repr

/-- Embedding of `service.Get` (part_001 lines 323-341).  `srvRoot` is the
service's `root` field. -/
def cpGet (srvRoot : String) (s : CpState) (env : CpEnv) (ref : String) :
    CpGetOut :=
  if ref = "" then ⟨s, .err "empty ref", false⟩
  else
    let target := pathJoin srvRoot ref
    if target ∈ s.targets then ⟨s, .ok target, false⟩
    else
      match env.mkdirErr with
      | some m => ⟨s, .err ("failed to create dir " ++ target ++ ": " ++ m), false⟩
      | none =>
        match env.prepErr with
        | some m => ⟨s, .err m, true⟩
        | none => ⟨⟨target :: s.targets⟩, .ok target, true⟩

/-- One `Get` call of a trace: the requested `ref` together with the
outcomes the environment would give to the effects of this call. -/
structure CpCall where
  ref : String
  env : CpEnv
deriving DecidableEq, Repr

/-- Run a sequence of `Get` calls, returning the final state. -/
def cpRunState (srvRoot : String) (s : CpState) : List CpCall → CpState
  | [] => s
  | c :: cs => cpRunState srvRoot (cpGet srvRoot s c.env c.ref).state cs

/-- Run a sequence of `Get` calls, pairing each call's `ref` with the
output of that call. -/
def cpOuts (srvRoot : String) (s : CpState) : List CpCall → List (String × CpGetOut)
  | [] => []
  | c :: cs =>
    let o := cpGet srvRoot s c.env c.ref
    (c.ref, o) :: cpOuts srvRoot o.state cs

/-- The refs for which `provider.Prepare` is invoked along a trace, with
multiplicity (one entry per invocation). -/
def prepCalls (srvRoot : String) (s : CpState) : List CpCall → List String
  | [] => []
  | c :: cs =>
    let o := cpGet srvRoot s c.env c.ref
    (if o.preparedCalled then [c.ref] else []) ++ prepCalls srvRoot o.state cs

/-- The `service.root` of a checkpoint service built by `checkpoint.New`
over daemon root `root`: `path.Join(root, "checkpoint")`. -/
def cpServiceRoot (root : String) : String := pathJoin root "checkpoint"

/-! Basic lemmas about one `cpGet` step. -/

/-- The targets map only grows: membership is preserved by a `Get`. -/
theorem cpGet_targets_mono (srvRoot : String) (s : CpState) (env : CpEnv)
    (ref t : String) (h : t ∈ s.targets) :
    t ∈ (cpGet srvRoot s env ref).state.targets := by
  unfold cpGet
  by_cases h0 : ref = ""
  · simpa [h0] using h
  · simp only [h0, if_false]
    by_cases hm : pathJoin srvRoot ref ∈ s.targets
    · simpa [hm] using h
    · cases hme : env.mkdirErr with
      | some m => simpa [hm, hme] using h
      | none =>
        cases hpe : env.prepErr with
        | some m => simpa [hm, hme, hpe] using h
        | none =>
          simp only [hm, hme, hpe, if_false]
          exact List.mem_cons_of_mem _ h

/-- A `Get` whose result is `ok` returns exactly `pathJoin srvRoot ref`. -/
theorem cpGet_ok_path (srvRoot : String) (s : CpState) (env : CpEnv)
    (ref p : String) (h : (cpGet srvRoot s env ref).res = .ok p) :
    p = pathJoin srvRoot ref := by
  unfold cpGet at h
  by_cases h0 : ref = ""
  · simp [h0] at h
  · simp only [h0, if_false] at h
    by_cases hm : pathJoin srvRoot ref ∈ s.targets
    · simp [hm] at h; exact h.symm
    · cases hme : env.mkdirErr with
      | some m => simp [hm, hme] at h
      | none =>
        cases hpe : env.prepErr with
        | some m => simp [hm, hme, hpe] at h
        | none => simp [hm, hme, hpe] at h; exact h.symm

/-- If `Prepare` is invoked during a `Get(ref)`, the target for `ref` was
not yet in the map. -/
theorem cpGet_prepared_not_mem (srvRoot : String) (s : CpState) (env : CpEnv)
    (ref : String) (h : (cpGet srvRoot s env ref).preparedCalled = true) :
    pathJoin srvRoot ref ∉ s.targets := by
  unfold cpGet at h
  by_cases h0 : ref = ""
  · simp [h0] at h
  · simp only [h0, if_false] at h
    by_cases hm : pathJoin srvRoot ref ∈ s.targets
    · simp [hm] at h
    · exact hm

/-- After a fully successful `Get(ref)` on a state not yet holding the
target, the target is in the map. -/
theorem cpGet_ok_mem (srvRoot : String) (s : CpState) (ref : String)
    (h0 : ref ≠ "") :
    pathJoin srvRoot ref ∈ (cpGet srvRoot s CpEnv.allOk ref).state.targets := by
  unfold cpGet
  simp only [h0, if_false]
  by_cases hm : pathJoin srvRoot ref ∈ s.targets
  · simp [hm]
  · simp [hm, CpEnv.allOk]

/-- Once the target for `ref` is in the map, no later call in any trace
invokes `Prepare` for `ref` again. -/
theorem prepCalls_count_zero (srvRoot : String) (ref : String) :
    ∀ (calls : List CpCall) (s : CpState),
      pathJoin srvRoot ref ∈ s.targets →
      (prepCalls srvRoot s calls).count ref = 0 := by
  intro calls
  induction calls with
  | nil => intro s _; simp [prepCalls]
  | cons c cs ih =>
    intro s hmem
    unfold prepCalls
    have ihs := ih _ (cpGet_targets_mono srvRoot s c.env c.ref _ hmem)
    by_cases hr : c.ref = ref
    · subst hr
      have hnp : (cpGet srvRoot s c.env c.ref).preparedCalled = false := by
        cases hpc : (cpGet srvRoot s c.env c.ref).preparedCalled with
        | false => rfl
        | true =>
          exact absurd hmem (cpGet_prepared_not_mem srvRoot s c.env c.ref hpc)
      simp [hnp, ihs]
    · cases hpc : (cpGet srvRoot s c.env c.ref).preparedCalled with
      | false => simp [hpc, ihs]
      | true =>
        simp only [hpc, if_true, List.singleton_append]
        rw [List.count_cons_of_ne (Ne.symm hr)]
        exact ihs

/-- In an all-successful environment, `Prepare` is invoked at most once per
distinct ref along any trace. -/
theorem prepCalls_count_le_one (srvRoot : String) (ref : String) :
    ∀ (calls : List CpCall) (s : CpState),
      (∀ c ∈ calls, c.env = CpEnv.allOk) →
      (prepCalls srvRoot s calls).count ref ≤ 1 := by
  intro calls
  induction calls with
  | nil => intro s _; simp [prepCalls]
  | cons c cs ih =>
    intro s hok
    have hce : c.env = CpEnv.allOk := hok c (List.mem_cons_self _ _)
    have ihs := ih (cpGet srvRoot s c.env c.ref).state
      (fun x hx => hok x (List.mem_cons_of_mem _ hx))
    unfold prepCalls
    cases hpc : (cpGet srvRoot s c.env c.ref).preparedCalled with
    | false => simp [hpc, ihs]
    | true =>
      by_cases hr : c.ref = ref
      · -- this call prepares `ref`; afterwards the target is in the map
        subst hr
        have h0 : c.ref ≠ "" := by
          intro habs
          unfold cpGet at hpc
          simp [habs] at hpc
        have hmem : pathJoin srvRoot c.ref ∈
            (cpGet srvRoot s c.env c.ref).state.targets := by
          rw [hce]
          exact cpGet_ok_mem srvRoot s c.ref h0
        have hz := prepCalls_count_zero srvRoot c.ref cs
          (cpGet srvRoot s c.env c.ref).state hmem
        simp [hpc, hz]
      · simp only [hpc, if_true, List.singleton_append]
        rw [List.count_cons_of_ne (Ne.symm hr)]
        exact ihs

/-- Every successful `Get(ref)` along any trace returns the same fixed
path `pathJoin srvRoot ref`. -/
theorem cpOuts_ok_path (srvRoot : String) :
    ∀ (calls : List CpCall) (s : CpState) (r p : String) (o : CpGetOut),
      (r, o) ∈ cpOuts srvRoot s calls → o.res = .ok p →
      p = pathJoin srvRoot r := by
  intro calls
  induction calls with
  | nil => intro s r p o h; simp [cpOuts] at h
  | cons c cs ih =>
    intro s r p o h hres
    unfold cpOuts at h
    rcases List.mem_cons.mp h with h1 | h2
    · have hr : r = c.ref := congrArg Prod.fst h1
      have ho : o = cpGet srvRoot s c.env c.ref := congrArg Prod.snd h1
      subst hr
      rw [ho] at hres
      exact cpGet_ok_path srvRoot s c.env c.ref p hres
    · exact ih _ r p o h2 hres

/-! ## Checkpoint service construction (`checkpoint.New`, `initProvider`)

`config` has a `Type` field (the provider kind) and a `Config` field that
is filled with a `*json.RawMessage` before unmarshalling, so the raw
provider sub-object is kept for a second unmarshal inside `initProvider`.
The JSON codec and the two provider constructors are external; their
outcomes are parameters. -/

/-- The `config` struct of the checkpoint package.  `ctype` embeds the Go
field `Type`; `raw` is the raw provider sub-object captured by the
`json.RawMessage` indirection (`none` when the unmarshal never wrote it,
as for the zero value). -/
structure CpConfig where
  ctype : String
  raw : Option String
deriving DecidableEq, Repr

/-- The zero value of `config` as left by a failed top-level unmarshal:
`Type` is the empty string and the raw message was never written. -/
def zeroCpConfig : CpConfig := ⟨"", none⟩

/-- Outcome of `json.Unmarshal(content, &c)` on the checkpoint config:
the error the call returns (`none` for nil) and the struct value it
leaves behind. -/
structure UnmarshalOut where
  errMsg : Option String
  parsed : CpConfig
deriving DecidableEq, Repr

/-- Outcome of `ioutil.ReadFile`. -/
inductive ReadRes where
  | ok (content : String)
  | err (msg : String)
deriving DecidableEq, Repr

/-- Outcomes of the external calls made by `initProvider`: the inner
`json.Unmarshal` into the provider-specific config and the provider
constructor, for each of the two provider kinds. -/
structure ProviderEnv where
  ccfsUnmErr : Option String
  ccfsNewErr : Option String
  ctrdUnmErr : Option String
  ctrdNewErr : Option String
deriving DecidableEq, Repr

/-- Result of `service.initProvider`: the error it returns, and whether it
assigned `s.referenceMgr` (done only in the `"ccfs"` branch, after a
successful provider construction). -/
structure InitProviderOut where
  errMsg : Option String
  refMgrSet : Bool
deriving DecidableEq, Repr

/-- Embedding of `service.initProvider` (part_001 lines 365-393). -/
def initProvider (env : ProviderEnv) (c : CpConfig) : InitProviderOut :=
  if c.ctype = "ccfs" then
    match env.ccfsUnmErr with
    | some m => ⟨some m, false⟩
    | none =>
      match env.ccfsNewErr with
      | some m => ⟨some ("failed to create ccfs provider: " ++ m), false⟩
      | none => ⟨none, true⟩
  else if c.ctype = "containerd" then
    match env.ctrdUnmErr with
    | some m => ⟨some m, false⟩
    | none =>
      match env.ctrdNewErr with
      | some m => ⟨some ("failed to create containerd provider: " ++ m), false⟩
      | none => ⟨none, false⟩
  else ⟨some "invalid provider type", false⟩

/-- Result of `checkpoint.New`: the returned `(services.Service, error)`
pair (on success we expose the parsed config and whether the reference
manager was set), plus the config value `initProvider` was called with,
if it was reached at all. -/
structure CpNewOut where
  result : GoRes CpConfig
  refMgrSet : Bool
  initProviderArg : Option CpConfig
deriving DecidableEq, Repr

/-- Embedding of `checkpoint.New` (part_001 lines 250-273).  Note the
source line `if json.Unmarshal(content, &c); err != nil`: the unmarshal's
return value is discarded and the stale `err` from `ioutil.ReadFile`
(necessarily nil on this path) is tested, so `unm.errMsg` is never
consulted — exactly as in the source. -/
def checkpointNew (env : ProviderEnv) (readRes : ReadRes)
    (unm : String → UnmarshalOut) : CpNewOut :=
  match readRes with
  | .err m => ⟨.err ("failed to read config file: " ++ m), false, none⟩
  | .ok content =>
    let c := (unm content).parsed
    let ip := initProvider env c
    match ip.errMsg with
    | some m => ⟨.err ("failed to create provider: " ++ m), ip.refMgrSet, some c⟩
    | none => ⟨.ok c, ip.refMgrSet, some c⟩

/-! ## Checkpoint request handler (`service.handleGetCheckpoint`)

The wire codec (`utils.ReceiveObject` / `utils.SendObject`) is external;
its outcomes are parameters.  `service.Handle` closes the connection
exactly when the handler (through the router) returns a non-nil error. -/

/-- Codec outcomes for one `GetCheckpoint` request: the result of
decoding the request body (the `Ref` field on success) and of sending the
response. -/
structure CpWire where
  reqRecv : GoRes String
  sendErr : Option String
deriving DecidableEq, Repr

/-- Observable outcome of `service.handleGetCheckpoint` plus the closing
behaviour of `service.Handle`: final state, the ref `referenceMgr.Add`
was invoked with (if it was), the `Path` value actually delivered to the
client, and whether the connection was closed. -/
structure CpHandleOut where
  state : CpState
  addCalledWith : Option String
  sentPath : Option String
  closed : Bool
deriving DecidableEq, Repr

/-- Embedding of `service.handleGetCheckpoint` (part_001 lines 343-363)
composed with the error handling of `service.Handle` (lines 303-308).
`hasRefMgr` states whether `s.referenceMgr` is non-nil (it is set exactly
when the active provider is the ccfs one, see `initProvider`). -/
def handleGetCheckpoint (srvRoot : String) (hasRefMgr : Bool) (env : CpEnv)
    (s : CpState) (w : CpWire) : CpHandleOut :=
  match w.reqRecv with
  | .err _ => ⟨s, none, none, true⟩
  | .ok ref =>
    let o := cpGet srvRoot s env ref
    -- `resp.Path, err = s.Get(r.Ref)`: on error Get returns "", so Path = ""
    let respPath := match o.res with | .ok p => p | .err _ => ""
    -- `if s.referenceMgr != nil { s.referenceMgr.Add(r.Ref) }` —
    -- unconditional in the success of Get
    let add := if hasRefMgr then some ref else none
    match w.sendErr with
    | some _ => ⟨o.state, add, none, true⟩
    | none => ⟨o.state, add, some respPath, false⟩

/-! ## Checkpoint shutdown (`service.Stop`) and server shutdown -/

/-- Embedding of the loop of `service.Stop` (part_001 lines 310-321):
returns the list of targets `provider.Remove` is invoked on (in
iteration order, one entry per invocation) and the accumulated `failed`
messages.  `removeErr t` is the error `provider.Remove(t)` returns. -/
def cpStopCalls (removeErr : String → Option String) :
    List String → List String × List String
  | [] => ([], [])
  | t :: ts =>
    let r := removeErr t
    let rest := cpStopCalls removeErr ts
    (t :: rest.1,
      (match r with
       | some e => ["remove " ++ t ++ " with error " ++ e]
       | none => []) ++ rest.2)

/-- The error returned by `service.Stop`. -/
def cpStop (removeErr : String → Option String) (targets : List String) :
    Option String :=
  let failed := (cpStopCalls removeErr targets).2
  if failed.isEmpty then none else some (String.intercalate ";" failed)

/-- Embedding of the service loop of `Server.Shutdown`
(src/cermanager/server.go lines 130-143): every service's `Stop` is
called; a non-nil error is only logged, never stops the loop.  Returns
each service paired with its `Stop` error. -/
def serverShutdown {σ : Type} (svcStop : σ → Option String) :
    List σ → List (σ × Option String)
  | [] => []
  | s :: ss => (s, svcStop s) :: serverShutdown svcStop ss

/-! ## Namespace service (package `namespace`, `src/unnamed/part_001`)

`ns.NamespaceType` lives in an external package; it is embedded as
`String` with three distinct constants.  `ns.Manager` is a Go interface
(`Get(arg) (int, int, interface-value, error)`, `Put(id) error`,
`CleanUp() error`); calls through it are embedded as behaviour functions
`mgrGet` / `mgrPut` over an abstract manager-state type `M`, so theorems
hold for every implementation of the interface. -/

/-- `ns.UTS`. -/
def nsUTS : String := "uts"

/-- `ns.IPC`. -/
def nsIPC : String := "ipc"

/-- `ns.MNT`. -/
def nsMNT : String := "mnt"

/-- `GetNamespaceRequest`: namespace type and an opaque argument. -/
structure GetNamespaceRequest where
  T : String
  Arg : String
deriving DecidableEq, Repr

/-- `PutNamespaceRequest`. -/
structure PutNamespaceRequest where
  T : String
  ID : Int
deriving DecidableEq, Repr

/-- `GetNamespaceResponse`; its Go zero value has all fields zero. -/
structure GetNamespaceResponse where
  NSId : Int
  Pid : Int
  Fd : Int
  Info : String
deriving DecidableEq, Repr

/-- `PutNamespaceResponse`. -/
structure PutNamespaceResponse where
  Error : String
deriving DecidableEq, Repr

/-- Lookup in the `svr.managers` map, embedded as an association list. -/
def alFind {α : Type} : List (String × α) → String → Option α
  | [], _ => none
  | (k, v) :: rest, key => if k = key then some v else alFind rest key

/-- Write back a manager's internal state after a call through the
interface (in Go the map value is a pointer and mutates in place). -/
def alUpdate {α : Type} : List (String × α) → String → α → List (String × α)
  | [], _, _ => []
  | (k, v) :: rest, key, nv =>
    if k = key then (key, nv) :: rest else (k, v) :: alUpdate rest key nv

/-- Embedding of `namespaceService.handleGetNamespace` (part_001 lines
134-157), up to the `SendWithSizePrefix` call: the updated managers map
and the response value it builds.  `mgrGet m arg` is what `mgr.Get(arg)`
returns for a manager in state `m`, together with the manager's new
state. -/
def handleGetNamespace {M : Type}
    (mgrGet : M → String → M × GoRes (Int × Int × String)) (pid : Int)
    (mgrs : List (String × M)) (r : GetNamespaceRequest) :
    List (String × M) × GetNamespaceResponse :=
  match alFind mgrs r.T with
  | none => (mgrs, ⟨0, 0, -1, "No such namespace"⟩)
  | some m =>
    let (m2, res) := mgrGet m r.Arg
    match res with
    | .err e => (alUpdate mgrs r.T m2, ⟨0, 0, -1, e⟩)
    | .ok (id, fd, info) => (alUpdate mgrs r.T m2, ⟨id, pid, fd, info⟩)

/-- Embedding of `namespaceService.handlePutNamespace` (part_001 lines
159-175), up to the send: `mgrPut m id` is what `mgr.Put(id)` returns. -/
def handlePutNamespace {M : Type}
    (mgrPut : M → Int → M × Option String)
    (mgrs : List (String × M)) (r : PutNamespaceRequest) :
    List (String × M) × PutNamespaceResponse :=
  match alFind mgrs r.T with
  | none => (mgrs, ⟨"No such namespace"⟩)
  | some m =>
    let (m2, res) := mgrPut m r.ID
    match res with
    | some e => (alUpdate mgrs r.T m2, ⟨e⟩)
    | none => (alUpdate mgrs r.T m2, ⟨""⟩)

/-- Codec outcomes for one namespace-service request: the result of
`utils.ReceiveData` for the method string, for each possible request
body, and the outcome of `utils.SendWithSizePrefix`. -/
structure NsWire where
  methodRecv : GoRes String
  getReqRecv : GoRes GetNamespaceRequest
  putReqRecv : GoRes PutNamespaceRequest
  sendErr : Option String
deriving DecidableEq, Repr

/-- Observable outcome of `namespaceService.Handle`: final managers map,
the responses actually delivered (at most one per request), and whether
the connection was closed. -/
structure NsHandleOut (M : Type) where
  mgrs : List (String × M)
  sentGet : Option GetNamespaceResponse
  sentPut : Option PutNamespaceResponse
  closed : Bool
deriving DecidableEq, Repr

/-- Embedding of `namespaceService.handleRequest` (part_001 lines
177-198) followed by the error handling of `namespaceService.Handle`
(lines 103-117): `Handle` closes the connection exactly when receiving
the method fails or `handleRequest` returns a non-nil error (codec
failure on the body or the send, or `"Unknown method type"`). -/
def nsHandle {M : Type}
    (mgrGet : M → String → M × GoRes (Int × Int × String))
    (mgrPut : M → Int → M × Option String) (pid : Int)
    (mgrs : List (String × M)) (w : NsWire) : NsHandleOut M :=
  match w.methodRecv with
  | .err _ => ⟨mgrs, none, none, true⟩
  | .ok method =>
    if method = "Get" then
      match w.getReqRecv with
      | .err _ => ⟨mgrs, none, none, true⟩
      | .ok r =>
        let (mgrs2, rsp) := handleGetNamespace mgrGet pid mgrs r
        match w.sendErr with
        | some _ => ⟨mgrs2, none, none, true⟩
        | none => ⟨mgrs2, some rsp, none, false⟩
    else if method = "Put" then
      match w.putReqRecv with
      | .err _ => ⟨mgrs, none, none, true⟩
      | .ok r =>
        let (mgrs2, rsp) := handlePutNamespace mgrPut mgrs r
        match w.sendErr with
        | some _ => ⟨mgrs2, none, none, true⟩
        | none => ⟨mgrs2, none, some rsp, false⟩
    else ⟨mgrs, none, none, true⟩

/-! ## Generic pool

Modelled from the spec: the generic pool implementation
(`namespace/generic`, § 4.1 of the spec) is not among the provided
sources; only its `uts` wrapper is.  Per the spec it is a bounded
container of resources `(id, handle, info)` with `all` and a LIFO
`available`; `Get` pops `available` or fails with `Exhausted`.  It is
used below only to instantiate the abstract manager-state `M` of the
handler theorems. -/

/-- A pooled resource `(id, handle, info)` (spec § 3). -/
structure PoolRes where
  id : Int
  handle : Int
  info : String
deriving DecidableEq, Repr

/-- Modelled from the spec: the generic pool's state (spec § 4.1). -/
structure Pool where
  capacity : Nat
  all : List PoolRes
  available : List PoolRes
deriving DecidableEq, Repr

/-- Modelled from the spec: pool `Get` — pop `available` or fail with
`Exhausted` (spec § 4.1). -/
def Pool.get (p : Pool) (_arg : String) : Pool × GoRes (Int × Int × String) :=
  match p.available with
  | [] => (p, .err "Exhausted")
  | r :: rest => ({ p with available := rest }, .ok (r.id, r.handle, r.info))

/-- Modelled from the spec: pool `Put` — reject unknown ids and double
puts, else push back onto `available` (spec § 4.1). -/
def Pool.put (p : Pool) (id : Int) : Pool × Option String :=
  if (p.all.filter (fun r => r.id = id)).isEmpty then (p, some "UnknownId")
  else if (p.available.filter (fun r => r.id = id)).isEmpty then
    match p.all.filter (fun r => r.id = id) with
    | r :: _ => ({ p with available := r :: p.available }, none)
    | [] => (p, some "UnknownId")
  else (p, some "NotInUse")

/-! ## Namespace service construction (`namespace.New`, part_001 lines
45-69, 200-224) -/

/-- `serviceConfig`, with the two maps embedded as association lists. -/
structure NsConfig where
  capacity : List (String × Int)
  extraArgs : List (String × List String)
deriving DecidableEq, Repr

/-- `defaultConfig()` (part_001 lines 215-223). -/
def defaultNsConfig : NsConfig :=
  ⟨[(nsIPC, 5), (nsUTS, 5), (nsMNT, 5)], []⟩

/-- Overwrite-or-add for a Go map assignment `m[k] = v`. -/
def alSet {α : Type} (m : List (String × α)) (k : String) (v : α) :
    List (String × α) :=
  match alFind m k with
  | some _ => alUpdate m k v
  | none => m ++ [(k, v)]

/-- One iteration of the loop body of `mergeConfig` for type `t`
(`dst` is the `to` parameter, `src` the `from` parameter). -/
def mergeOne (dst src : NsConfig) (t : String) : GoRes NsConfig :=
  let withCap :=
    match alFind src.capacity t with
    | some v => if v < 0 then none else some { dst with capacity := alSet dst.capacity t v }
    | none => some dst
  match withCap with
  | none => .err "negative namespace capacity"
  | some cfg =>
    match alFind src.extraArgs t with
    | some v => .ok { cfg with extraArgs := alSet cfg.extraArgs t v }
    | none => .ok cfg

/-- Embedding of `mergeConfig` (part_001 lines 200-213): the loop runs
over `[IPC, MNT, UTS]` in order, returning on the first error. -/
def mergeConfig (dst src : NsConfig) : GoRes NsConfig :=
  match mergeOne dst src nsIPC with
  | .err e => .err e
  | .ok c1 =>
    match mergeOne c1 src nsMNT with
    | .err e => .err e
    | .ok c2 => mergeOne c2 src nsUTS

/-- Outcome of `os.Stat(configPath)`. -/
inductive StatRes where
  | okExists
  | notExist
  | err (msg : String)
deriving DecidableEq, Repr

/-- Outcome of `json.Unmarshal` on the namespace config file. -/
structure NsUnmarshalOut where
  errMsg : Option String
  parsed : NsConfig
deriving DecidableEq, Repr

/-- Embedding of `namespace.New` (part_001 lines 45-69): on success it
returns the service's `config` field.  Unlike `checkpoint.New`, the
unmarshal error is tested correctly here. -/
def namespaceNew (stat : StatRes) (readRes : ReadRes)
    (unm : String → NsUnmarshalOut) : GoRes NsConfig :=
  match stat with
  | .okExists =>
    match readRes with
    | .err m => .err m
    | .ok content =>
      match (unm content).errMsg with
      | some m => .err m
      | none => mergeConfig defaultNsConfig (unm content).parsed
  | .notExist => .ok defaultNsConfig
  | .err m => .err m

/-! ## Connection server (`src/cermanager/server.go`)

`Server.serve` loops reading a service-type discriminator and
dispatching.  The input of one connection is the list of results
successive `utils.ReceiveServiceType` calls would yield while the
connection is open; an exhausted list behaves as EOF.  After
`conn.Close()` the next read necessarily fails, so `serve` returns on
the following iteration with no further observable effect; the embedding
returns at that point.  `serve` never writes to the server's error
channel, and the accept loop exits only on an `Accept` error, so each
connection's outcome is a function of its own input alone. -/

/-- One result of `utils.ReceiveServiceType` on an open connection. -/
inductive RecvTypeRes where
  | ok (t : Nat)
  | eofR
  | errR (msg : String)
deriving DecidableEq, Repr

/-- Embedding of `Server.serve` (server.go lines 105-128): returns the
service types successfully dispatched to `svr.Handle`, in order, and
whether the connection ended closed by the daemon.  `svcs t` states
whether service type `t` is a key of `s.services`. -/
def serve (svcs : Nat → Bool) : List RecvTypeRes → List Nat × Bool
  | [] => ([], true)
  | .eofR :: _ => ([], true)
  | .errR _ :: _ => ([], true)
  | .ok t :: rest =>
    if svcs t then
      let r := serve svcs rest
      (t :: r.1, r.2)
    else ([], true)

/-- Embedding of the accept loop of `Server.Start` (server.go lines
86-101): each accepted connection is handled by an independent `serve`
with no shared mutable state, so the server's outcome is the list of the
per-connection outcomes. -/
def serverRun (svcs : Nat → Bool) (conns : List (List RecvTypeRes)) :
    List (List Nat × Bool) :=
  conns.map (serve svcs)

/-! ## Supporting lemmas for the shutdown theorems -/

/-- A `Get` preserves distinctness of the targets map keys. -/
theorem cpGet_nodup (srvRoot : String) (s : CpState) (env : CpEnv)
    (ref : String) (h : s.targets.Nodup) :
    (cpGet srvRoot s env ref).state.targets.Nodup := by
  unfold cpGet
  by_cases h0 : ref = ""
  · simpa [h0] using h
  · simp only [h0, if_false]
    by_cases hm : pathJoin srvRoot ref ∈ s.targets
    · simpa [hm] using h
    · cases hme : env.mkdirErr with
      | some m => simpa [hm, hme] using h
      | none =>
        cases hpe : env.prepErr with
        | some m => simpa [hm, hme, hpe] using h
        | none =>
          simp only [hm, hme, hpe, if_false]
          exact List.Nodup.cons hm h

/-- Along any trace, the targets map keeps distinct keys. -/
theorem cpRunState_nodup (srvRoot : String) :
    ∀ (calls : List CpCall) (s : CpState), s.targets.Nodup →
      (cpRunState srvRoot s calls).targets.Nodup := by
  intro calls
  induction calls with
  | nil => intro s h; simpa [cpRunState] using h
  | cons c cs ih =>
    intro s h
    unfold cpRunState
    exact ih _ (cpGet_nodup srvRoot s c.env c.ref h)

/-- `Stop` invokes `provider.Remove` once per element of the targets map,
in iteration order, whatever the individual calls return. -/
theorem cpStopCalls_fst (removeErr : String → Option String) :
    ∀ ts : List String, (cpStopCalls removeErr ts).1 = ts := by
  intro ts
  induction ts with
  | nil => rfl
  | cons t ts ih => simp [cpStopCalls, ih]

/-- The `failed` accumulator of `Stop` is empty exactly when every
`Remove` call succeeded. -/
theorem cpStopCalls_failed_empty_iff (removeErr : String → Option String) :
    ∀ ts : List String,
      (cpStopCalls removeErr ts).2 = [] ↔ ∀ t ∈ ts, removeErr t = none := by
  intro ts
  induction ts with
  | nil => simp [cpStopCalls]
  | cons t ts ih =>
    cases hr : removeErr t with
    | some e => simp [cpStopCalls, hr]
    | none => simp [cpStopCalls, hr, ih]

/-! ## Claim theorems -/

/-- C1, counterexample to the claim as stated: two sequential
`Get("img-A")` calls against a provider whose first `Prepare` fails and
whose second succeeds invoke `Prepare` twice for the single distinct ref
`"img-A"`, so `Prepare` is not invoked at most once per distinct ref over
every sequence of `Get` calls. -/
theorem cpGet_prepare_retried_after_failure :
    (prepCalls (cpServiceRoot "/var/lib/cermanager") ⟨[]⟩
      [⟨"img-A", ⟨none, some "prepare failed"⟩⟩, ⟨"img-A", CpEnv.allOk⟩]).count
      "img-A" = 2 := by decide

/-- C1, amended: over any sequence of `Get` calls in which every
`os.MkdirAll` and every `provider.Prepare` call succeeds,
`provider.Prepare` is invoked at most once per distinct ref (a failed
attempt is retried by later `Get`s of the same ref, which is the only
amendment), and every successful `Get(ref)` — under any environment —
returns the one fixed path `root/"checkpoint"/ref`. -/
theorem cpGet_prepare_at_most_once (root ref : String) (calls : List CpCall)
    (hok : ∀ c ∈ calls, c.env = CpEnv.allOk) :
    (prepCalls (cpServiceRoot root) ⟨[]⟩ calls).count ref ≤ 1 ∧
    (∀ (r p : String) (o : CpGetOut),
      (r, o) ∈ cpOuts (cpServiceRoot root) ⟨[]⟩ calls →
      o.res = GoRes.ok p → p = pathJoin (cpServiceRoot root) r) := by
  refine ⟨prepCalls_count_le_one _ ref calls ⟨[]⟩ hok, ?_⟩
  intro r p o hmem hres
  exact cpOuts_ok_path (cpServiceRoot root) calls ⟨[]⟩ r p o hmem hres

/-- C1, witness: the amended theorem applied to the concrete two-call
trace `Get("img-A"); Get("img-A")` in the all-successful environment. -/
theorem cpGet_prepare_at_most_once_witness :
    (prepCalls (cpServiceRoot "/var/lib/cermanager") ⟨[]⟩
      [⟨"img-A", CpEnv.allOk⟩, ⟨"img-A", CpEnv.allOk⟩]).count "img-A" ≤ 1 ∧
    (∀ (r p : String) (o : CpGetOut),
      (r, o) ∈ cpOuts (cpServiceRoot "/var/lib/cermanager") ⟨[]⟩
        [⟨"img-A", CpEnv.allOk⟩, ⟨"img-A", CpEnv.allOk⟩] →
      o.res = GoRes.ok p → p = pathJoin (cpServiceRoot "/var/lib/cermanager") r) :=
  cpGet_prepare_at_most_once "/var/lib/cermanager" "img-A"
    [⟨"img-A", CpEnv.allOk⟩, ⟨"img-A", CpEnv.allOk⟩] (by decide)

/-- C2: the claim is what the code intends but not what it does.  On a
config file whose content fails to unmarshal (e.g. the invalid JSON
`"["`), `checkpoint.New` ignores the unmarshal error — the source tests
the stale `err` from `ioutil.ReadFile` in
`if json.Unmarshal(content, &c); err != nil` — and proceeds to
`initProvider` with the zero-valued config, failing only incidentally
with the provider error, not the unmarshal error.  The first conjunct
shows the outcome of `checkpoint.New` never depends on the unmarshal
error at all; the second evaluates it at the failing input. -/
theorem checkpointNew_drops_unmarshal_error :
    (∀ (env : ProviderEnv) (readRes : ReadRes) (parsed : String → CpConfig)
      (e1 : String → String),
      checkpointNew env readRes (fun c => ⟨some (e1 c), parsed c⟩) =
      checkpointNew env readRes (fun c => ⟨none, parsed c⟩)) ∧
    checkpointNew ⟨none, none, none, none⟩ (.ok "[")
      (fun _ => ⟨some "unexpected end of JSON input", zeroCpConfig⟩) =
      ⟨.err "failed to create provider: invalid provider type", false,
        some zeroCpConfig⟩ := by
  constructor
  · intro env readRes parsed e1
    cases readRes with
    | ok content => rfl
    | err m => rfl
  · decide

/-- C5: `Get("")` fails with the invalid-argument error `"empty ref"`
without touching the targets map and without invoking `Prepare`, and the
corresponding `GetCheckpoint` request (body decoded, send succeeding)
still receives a response whose `Path` is the empty string, with the
connection left open. -/
theorem cpGet_empty_ref (srvRoot : String) (env : CpEnv) (s : CpState)
    (hasRefMgr : Bool) (w : CpWire) (hreq : w.reqRecv = .ok "")
    (hsend : w.sendErr = none) :
    cpGet srvRoot s env "" = ⟨s, .err "empty ref", false⟩ ∧
    handleGetCheckpoint srvRoot hasRefMgr env s w =
      ⟨s, if hasRefMgr then some "" else none, some "", false⟩ := by
  constructor
  · simp [cpGet]
  · unfold handleGetCheckpoint
    rw [hreq]
    simp [cpGet, hsend]

/-- C5, witness: the theorem at a concrete empty-ref request. -/
theorem cpGet_empty_ref_witness :
    cpGet (cpServiceRoot "/var/lib/cermanager") ⟨[]⟩ CpEnv.allOk "" =
      ⟨⟨[]⟩, .err "empty ref", false⟩ ∧
    handleGetCheckpoint (cpServiceRoot "/var/lib/cermanager") false CpEnv.allOk
      ⟨[]⟩ ⟨.ok "", none⟩ = ⟨⟨[]⟩, none, some "", false⟩ := by
  have h := cpGet_empty_ref (cpServiceRoot "/var/lib/cermanager") CpEnv.allOk
    ⟨[]⟩ false ⟨.ok "", none⟩ rfl rfl
  simpa using h

/-- C7: a missing namespace config file (`os.Stat` reporting
not-exist) yields the default config — capacity 5 for each of UTS, IPC
and MNT and empty extra args — while a missing checkpoint config file
(`ioutil.ReadFile` failing) makes `checkpoint.New` fail. -/
theorem missing_config_defaults (readRes : ReadRes)
    (unm : String → NsUnmarshalOut) (env : ProviderEnv)
    (unm2 : String → UnmarshalOut) (m : String) :
    namespaceNew .notExist readRes unm = .ok defaultNsConfig ∧
    alFind defaultNsConfig.capacity nsUTS = some 5 ∧
    alFind defaultNsConfig.capacity nsIPC = some 5 ∧
    alFind defaultNsConfig.capacity nsMNT = some 5 ∧
    defaultNsConfig.extraArgs = [] ∧
    (checkpointNew env (.err m) unm2).result =
      .err ("failed to read config file: " ++ m) :=
  ⟨rfl, by decide, by decide, by decide, rfl, rfl⟩

/-- C8: at shutdown, `service.Stop` invokes `provider.Remove` exactly
once per element of the targets map (whose keys stay pairwise distinct
along any trace — one per distinct prepared ref), whatever errors the
individual `Remove` calls return; the returned error is nil exactly when
every `Remove` succeeded, failures being aggregated rather than aborting
the loop; and `Server.Shutdown` stops every remaining service no matter
which `Stop` calls fail. -/
theorem stop_removes_every_target (root : String) (calls : List CpCall)
    (removeErr : String → Option String) :
    (cpStopCalls removeErr
        (cpRunState (cpServiceRoot root) ⟨[]⟩ calls).targets).1 =
      (cpRunState (cpServiceRoot root) ⟨[]⟩ calls).targets ∧
    (cpRunState (cpServiceRoot root) ⟨[]⟩ calls).targets.Nodup ∧
    (cpStop removeErr (cpRunState (cpServiceRoot root) ⟨[]⟩ calls).targets =
        none ↔
      ∀ t ∈ (cpRunState (cpServiceRoot root) ⟨[]⟩ calls).targets,
        removeErr t = none) ∧
    (∀ (svcStop : Nat → Option String) (svcs : List Nat),
      (serverShutdown svcStop svcs).map Prod.fst = svcs) := by
  refine ⟨cpStopCalls_fst removeErr _,
    cpRunState_nodup (cpServiceRoot root) calls ⟨[]⟩ (by simp), ?_, ?_⟩
  · unfold cpStop
    rcases hf : (cpStopCalls removeErr
        (cpRunState (cpServiceRoot root) ⟨[]⟩ calls).targets).2 with _ | ⟨x, xs⟩
    · simp [hf, ← cpStopCalls_failed_empty_iff removeErr, hf]
    · simp only [hf, List.isEmpty_cons, if_false]
      constructor
      · intro h; cases h
      · intro h
        have := (cpStopCalls_failed_empty_iff removeErr _).mpr h
        rw [hf] at this
        cases this
  · intro svcStop svcs
    induction svcs with
    | nil => rfl
    | cons s ss ih => simp [serverShutdown, ih]

/-- C3, counterexample to the claim as stated: on a `GetCheckpoint`
request with the empty ref against a service with a reference manager
(ccfs provider), `Get("")` fails with `"empty ref"`, yet
`referenceMgr.Add` is still invoked (with the empty ref) — `Add` is not
restricted to successful `Get`s. -/
theorem add_invoked_after_failed_get :
    (handleGetCheckpoint (cpServiceRoot "/var/lib/cermanager") true
      CpEnv.allOk ⟨[]⟩ ⟨.ok "", none⟩).addCalledWith = some "" ∧
    (cpGet (cpServiceRoot "/var/lib/cermanager") ⟨[]⟩ CpEnv.allOk "").res =
      .err "empty ref" := by decide

/-- C3, amended: when the reference manager is set — which happens
exactly when the configured provider type is `"ccfs"` and its
construction succeeds — `Add(ref)` is invoked on every `GetCheckpoint`
request whose body decodes, whether or not `Get(ref)` succeeded; with no
reference manager it is never invoked. -/
theorem add_invoked_on_every_request (srvRoot : String) (env : CpEnv)
    (s : CpState) (w : CpWire) (ref : String) (hreq : w.reqRecv = .ok ref) :
    (handleGetCheckpoint srvRoot true env s w).addCalledWith = some ref ∧
    (handleGetCheckpoint srvRoot false env s w).addCalledWith = none ∧
    (∀ (envp : ProviderEnv) (c : CpConfig),
      (initProvider envp c).refMgrSet = true ↔
        (c.ctype = "ccfs" ∧ envp.ccfsUnmErr = none ∧
          envp.ccfsNewErr = none)) := by
  refine ⟨?_, ?_, ?_⟩
  · unfold handleGetCheckpoint
    rw [hreq]
    cases hs : w.sendErr <;> simp [hs]
  · unfold handleGetCheckpoint
    rw [hreq]
    cases hs : w.sendErr <;> simp [hs]
  · intro envp c
    unfold initProvider
    by_cases hc : c.ctype = "ccfs"
    · simp only [hc, if_true]
      cases h1 : envp.ccfsUnmErr <;> cases h2 : envp.ccfsNewErr <;>
        simp [h1, h2, hc]
    · by_cases hc2 : c.ctype = "containerd"
      · simp only [hc, hc2, if_false, if_true]
        cases h1 : envp.ctrdUnmErr <;> cases h2 : envp.ctrdNewErr <;>
          simp [h1, h2, hc]
      · simp [hc, hc2]

/-- C3, witness: the amended theorem at a concrete decoded request. -/
theorem add_invoked_on_every_request_witness :
    (handleGetCheckpoint "/var/lib/cermanager/checkpoint" true CpEnv.allOk
      ⟨[]⟩ ⟨.ok "img-A", none⟩).addCalledWith = some "img-A" ∧
    (handleGetCheckpoint "/var/lib/cermanager/checkpoint" false CpEnv.allOk
      ⟨[]⟩ ⟨.ok "img-A", none⟩).addCalledWith = none ∧
    (∀ (envp : ProviderEnv) (c : CpConfig),
      (initProvider envp c).refMgrSet = true ↔
        (c.ctype = "ccfs" ∧ envp.ccfsUnmErr = none ∧
          envp.ccfsNewErr = none)) :=
  add_invoked_on_every_request "/var/lib/cermanager/checkpoint" CpEnv.allOk
    ⟨[]⟩ ⟨.ok "img-A", none⟩ "img-A" rfl

/-- C4, counterexample to the claim as stated: a request whose method
string is neither `"Get"` nor `"Put"` (here `"List"`) is not answered
with a serialised error — `handleRequest` returns the
`"Unknown method type"` error and `Handle` closes the connection. -/
theorem unknown_method_closes_connection :
    nsHandle (M := Unit) (fun m _ => (m, GoRes.err "unused"))
      (fun m _ => (m, none)) 1 []
      ⟨.ok "List", .ok ⟨nsUTS, ""⟩, .ok ⟨nsUTS, 0⟩, none⟩ =
      ⟨[], none, none, true⟩ := by decide

/-- C4, amended: unknown namespace type on `Get`, manager error on `Get`
and bad id on `Put` are serialised into the response
(`Fd = -1` / `Error = msg`) with the connection left open; an unknown
method however is not serialised — it closes the connection, as do codec
violations (failing to receive the method). -/
theorem per_request_errors_serialised {M : Type}
    (mgrGet : M → String → M × GoRes (Int × Int × String))
    (mgrPut : M → Int → M × Option String) (pid : Int)
    (mgrs : List (String × M)) (w : NsWire) :
    (∀ r : GetNamespaceRequest, w.methodRecv = .ok "Get" →
      w.getReqRecv = .ok r → w.sendErr = none → alFind mgrs r.T = none →
      nsHandle mgrGet mgrPut pid mgrs w =
        ⟨mgrs, some ⟨0, 0, -1, "No such namespace"⟩, none, false⟩) ∧
    (∀ (r : GetNamespaceRequest) (m m2 : M) (e : String),
      w.methodRecv = .ok "Get" → w.getReqRecv = .ok r → w.sendErr = none →
      alFind mgrs r.T = some m → mgrGet m r.Arg = (m2, .err e) →
      nsHandle mgrGet mgrPut pid mgrs w =
        ⟨alUpdate mgrs r.T m2, some ⟨0, 0, -1, e⟩, none, false⟩) ∧
    (∀ (r : PutNamespaceRequest) (m m2 : M) (e : String),
      w.methodRecv = .ok "Put" → w.putReqRecv = .ok r → w.sendErr = none →
      alFind mgrs r.T = some m → mgrPut m r.ID = (m2, some e) →
      nsHandle mgrGet mgrPut pid mgrs w =
        ⟨alUpdate mgrs r.T m2, none, some ⟨e⟩, false⟩) ∧
    (∀ meth : String, w.methodRecv = .ok meth → meth ≠ "Get" →
      meth ≠ "Put" →
      nsHandle mgrGet mgrPut pid mgrs w = ⟨mgrs, none, none, true⟩) ∧
    (∀ e : String, w.methodRecv = .err e →
      nsHandle mgrGet mgrPut pid mgrs w = ⟨mgrs, none, none, true⟩) := by
  refine ⟨?_, ?_, ?_, ?_, ?_⟩
  · intro r h1 h2 h3 h4
    simp [nsHandle, h1, h2, h3, handleGetNamespace, h4]
  · intro r m m2 e h1 h2 h3 h4 h5
    simp [nsHandle, h1, h2, h3, handleGetNamespace, h4, h5]
  · intro r m m2 e h1 h2 h3 h4 h5
    simp [nsHandle, h1, h2, h3, handlePutNamespace, h4, h5]
  · intro meth h1 h2 h3
    simp [nsHandle, h1, h2, h3]
  · intro e h1
    simp [nsHandle, h1]

/-- C4, witness: the amended theorem's unknown-namespace-type conjunct at
a concrete request (`T = "net"` with only a `"uts"` manager). -/
theorem per_request_errors_serialised_witness :
    nsHandle Pool.get Pool.put 42 [(nsUTS, (⟨1, [⟨0, 7, ""⟩], [⟨0, 7, ""⟩]⟩ : Pool))]
      ⟨.ok "Get", .ok ⟨"net", ""⟩, .ok ⟨"net", 0⟩, none⟩ =
      ⟨[(nsUTS, ⟨1, [⟨0, 7, ""⟩], [⟨0, 7, ""⟩]⟩)],
        some ⟨0, 0, -1, "No such namespace"⟩, none, false⟩ :=
  (per_request_errors_serialised Pool.get Pool.put 42
      [(nsUTS, ⟨1, [⟨0, 7, ""⟩], [⟨0, 7, ""⟩]⟩)]
      ⟨.ok "Get", .ok ⟨"net", ""⟩, .ok ⟨"net", 0⟩, none⟩).1
    ⟨"net", ""⟩ rfl rfl rfl rfl

/-- C6: a `Get` request whose namespace type has no registered manager is
answered with `Fd = -1` and `Info = "No such namespace"` and the managers
map — hence every pool's `all`, `available` and in-use sets — is returned
unchanged, no manager having been invoked; a manager error is answered
with `Fd = -1` and `Info` equal to the error's message. -/
theorem unknown_type_leaves_pools_unchanged {M : Type}
    (mgrGet : M → String → M × GoRes (Int × Int × String)) (pid : Int)
    (mgrs : List (String × M)) (r : GetNamespaceRequest) :
    (alFind mgrs r.T = none →
      handleGetNamespace mgrGet pid mgrs r =
        (mgrs, ⟨0, 0, -1, "No such namespace"⟩)) ∧
    (∀ (m m2 : M) (e : String), alFind mgrs r.T = some m →
      mgrGet m r.Arg = (m2, .err e) →
      (handleGetNamespace mgrGet pid mgrs r).2 = ⟨0, 0, -1, e⟩) := by
  constructor
  · intro h
    simp [handleGetNamespace, h]
  · intro m m2 e h1 h2
    simp [handleGetNamespace, h1, h2]

/-- C6, witness: the theorem at a concrete pool-backed manager map and an
unregistered type `"net"`: the response is the failure response and the
pool state is returned exactly as it was. -/
theorem unknown_type_leaves_pools_unchanged_witness :
    handleGetNamespace Pool.get 42
      [(nsUTS, (⟨1, [⟨0, 7, ""⟩], [⟨0, 7, ""⟩]⟩ : Pool))] ⟨"net", ""⟩ =
      ([(nsUTS, ⟨1, [⟨0, 7, ""⟩], [⟨0, 7, ""⟩]⟩)],
        ⟨0, 0, -1, "No such namespace"⟩) :=
  (unknown_type_leaves_pools_unchanged Pool.get 42
    [(nsUTS, ⟨1, [⟨0, 7, ""⟩], [⟨0, 7, ""⟩]⟩)] ⟨"net", ""⟩).1 rfl

/-- C9: on a service-type discriminator that matches no registered
service, `serve` closes the connection and returns without dispatching
anything; and since each accepted connection is handled by an
independent `serve` over its own input (the handlers share no mutable
state and never write the accept loop's error channel), every other
connection's outcome is exactly `serve` of its own input, unaffected. -/
theorem unknown_service_type_closes (svcs : Nat → Bool) (t : Nat)
    (rest : List RecvTypeRes) (conns : List (List RecvTypeRes)) (i : Nat)
    (h : svcs t = false) :
    serve svcs (.ok t :: rest) = ([], true) ∧
    (serverRun svcs conns).length = conns.length ∧
    (serverRun svcs conns)[i]? = conns[i]?.map (serve svcs) := by
  refine ⟨?_, by simp [serverRun], by simp [serverRun]⟩
  simp [serve, h]

/-- C9, witness: a server with only service 0 registered; the second
connection opens with the unknown type 5 and is closed with nothing
dispatched, the first is served normally. -/
theorem unknown_service_type_closes_witness :
    serve (fun t => t == 0) (.ok 5 :: [.ok 0]) = ([], true) ∧
    (serverRun (fun t => t == 0) [[.ok 0], [.ok 5, .ok 0]]).length = 2 ∧
    (serverRun (fun t => t == 0) [[.ok 0], [.ok 5, .ok 0]])[0]? =
      [[.ok 0], [.ok 5, .ok 0]][0]?.map (serve (fun t => t == 0)) :=
  unknown_service_type_closes (fun t => t == 0) 5 [.ok 0]
    [[.ok 0], [.ok 5, .ok 0]] 0 rfl

/-- C10: in a `Get` response the `Pid` field equals the daemon pid (which
is never 0) exactly when the manager lookup and the manager's `Get`
succeeded; on any failure — unknown namespace type or manager error —
the response keeps the zero values `Pid = 0` and `NSId = 0` and carries
`Fd = -1`, so `Fd` is the field a client must check. -/
theorem pid_equals_daemon_pid_iff_success {M : Type}
    (mgrGet : M → String → M × GoRes (Int × Int × String)) (pid : Int)
    (mgrs : List (String × M)) (r : GetNamespaceRequest) (hpid : pid ≠ 0) :
    ((handleGetNamespace mgrGet pid mgrs r).2.Pid = pid ↔
      ∃ (m : M) (x : Int × Int × String),
        alFind mgrs r.T = some m ∧ (mgrGet m r.Arg).2 = .ok x) ∧
    ((¬ ∃ (m : M) (x : Int × Int × String),
        alFind mgrs r.T = some m ∧ (mgrGet m r.Arg).2 = .ok x) →
      (handleGetNamespace mgrGet pid mgrs r).2.Pid = 0 ∧
      (handleGetNamespace mgrGet pid mgrs r).2.NSId = 0 ∧
      (handleGetNamespace mgrGet pid mgrs r).2.Fd = -1) := by
  cases halFind : alFind mgrs r.T with
  | none =>
    have hresp : (handleGetNamespace mgrGet pid mgrs r).2 =
        ⟨0, 0, -1, "No such namespace"⟩ := by
      simp [handleGetNamespace, halFind]
    rw [hresp]
    constructor
    · constructor
      · intro habs
        exact absurd habs.symm hpid
      · rintro ⟨m, x, hm, _⟩
        cases hm
    · intro _
      exact ⟨rfl, rfl, rfl⟩
  | some m =>
    rcases hg : mgrGet m r.Arg with ⟨m2, res⟩
    cases res with
    | err e =>
      have hresp : (handleGetNamespace mgrGet pid mgrs r).2 = ⟨0, 0, -1, e⟩ := by
        simp [handleGetNamespace, halFind, hg]
      rw [hresp]
      constructor
      · constructor
        · intro habs
          exact absurd habs.symm hpid
        · rintro ⟨m3, x, hm3, hx⟩
          have hme : m = m3 := Option.some.inj hm3
          subst hme
          rw [hg] at hx
          cases hx
      · intro _
        exact ⟨rfl, rfl, rfl⟩
    | ok x =>
      obtain ⟨id, fd, info⟩ := x
      have hresp : (handleGetNamespace mgrGet pid mgrs r).2 =
          ⟨id, pid, fd, info⟩ := by
        simp [handleGetNamespace, halFind, hg]
      rw [hresp]
      constructor
      · constructor
        · intro _
          exact ⟨m, (id, fd, info), rfl, by rw [hg]⟩
        · intro _
          rfl
      · intro habs
        exact absurd ⟨m, (id, fd, info), rfl, by rw [hg]⟩ habs

/-- C10, witness: the theorem at a concrete pool-backed map, pid 42 and
an unregistered type, showing the zeroed failure response. -/
theorem pid_equals_daemon_pid_iff_success_witness :
    ((handleGetNamespace Pool.get 42
        [(nsUTS, (⟨1, [⟨0, 7, ""⟩], [⟨0, 7, ""⟩]⟩ : Pool))]
        ⟨"net", ""⟩).2.Pid = 42 ↔
      ∃ (m : Pool) (x : Int × Int × String),
        alFind [(nsUTS, (⟨1, [⟨0, 7, ""⟩], [⟨0, 7, ""⟩]⟩ : Pool))] "net" =
          some m ∧ (Pool.get m "").2 = .ok x) ∧
    ((¬ ∃ (m : Pool) (x : Int × Int × String),
        alFind [(nsUTS, (⟨1, [⟨0, 7, ""⟩], [⟨0, 7, ""⟩]⟩ : Pool))] "net" =
          some m ∧ (Pool.get m "").2 = .ok x) →
      (handleGetNamespace Pool.get 42
        [(nsUTS, (⟨1, [⟨0, 7, ""⟩], [⟨0, 7, ""⟩]⟩ : Pool))]
        ⟨"net", ""⟩).2.Pid = 0 ∧
      (handleGetNamespace Pool.get 42
        [(nsUTS, (⟨1, [⟨0, 7, ""⟩], [⟨0, 7, ""⟩]⟩ : Pool))]
        ⟨"net", ""⟩).2.NSId = 0 ∧
      (handleGetNamespace Pool.get 42
        [(nsUTS, (⟨1, [⟨0, 7, ""⟩], [⟨0, 7, ""⟩]⟩ : Pool))]
        ⟨"net", ""⟩).2.Fd = -1) :=
  pid_equals_daemon_pid_iff_success Pool.get 42
    [(nsUTS, ⟨1, [⟨0, 7, ""⟩], [⟨0, 7, ""⟩]⟩)] ⟨"net", ""⟩ (by decide)

end CerManager
